import Mathlib

/-!
Formal model of the approval-coordination subsystem of the
claude-code-slack-bot repository.

The embedding covers:
* `ApprovalManager` (the cross-process coordinator living in the main bot
  process): its in-memory registry of `PendingApproval` records, the HTTP
  request handler with its routes (`/health`, `/register/:id`, `/status/:id`,
  `/approve/:id`, `/deny/:id`, `/cleanup`), the periodic stale-record sweep,
  the direct `resolveApproval` / `getApprovalStatus` methods, and the
  server-error handler.
* `PermissionMCPServer` (the short-lived worker): `registerApproval`,
  `pollApprovalStatus` (the polling resolution waiter) and
  `handlePermissionPrompt`, plus the embedded variant's HTTP-server error
  handler (which retries on `port + 1` on `EADDRINUSE`).

The JavaScript `Map` backing the registry is modelled as an association list
with insertion-order-preserving `set`, `get` and `delete` (`mapSet`, `mapGet`,
`mapDelete`).  Timestamps (`Date.now()`) are natural numbers of milliseconds.
An HTTP request body that fails `JSON.parse` is modelled as `none`.
-/

/-- The `status` field of a `PendingApproval`:
`'pending' | 'approved' | 'denied'`. -/
inductive Status where
  | pending
  | approved
  | denied
deriving Repr, DecidableEq

/-- The opaque `input` payload attached to an approval.  The core never
interprets it; we only need a distinguished empty-object value (`{}`) used as
the default, and arbitrary other values. -/
inductive JsInput where
  | emptyObj
  | obj (fields : List (String × String))
deriving Repr, DecidableEq

/-- A record of the `ApprovalManager` registry (interface `PendingApproval`).
`registeredAt` and `resolvedAt` are millisecond timestamps; `resolvedAt` is
the optional field `resolvedAt?: Date`. -/
structure PendingApproval where
  approvalId : String
  toolName : String
  input : JsInput
  status : Status
  registeredAt : Nat
  resolvedAt : Option Nat
deriving Repr, DecidableEq

/-- The registry: a JavaScript `Map<string, PendingApproval>` modelled as an
insertion-ordered association list. -/
abbrev Registry := List (String × PendingApproval)

/-- JavaScript `Map.get`: the value bound to `id`, if any. -/
def mapGet : Registry → String → Option PendingApproval
  | [], _ => none
  | (k, v) :: rest, id => if k = id then some v else mapGet rest id

/-- JavaScript `Map.set`: overwrite the binding for `id` in place (keeping its
position) or append a new binding. -/
def mapSet : Registry → String → PendingApproval → Registry
  | [], id, v => [(id, v)]
  | (k, w) :: rest, id, v =>
      if k = id then (id, v) :: rest else (k, w) :: mapSet rest id v

/-- JavaScript `Map.delete`: remove the binding for `id`, if present. -/
def mapDelete : Registry → String → Registry
  | [], _ => []
  | (k, v) :: rest, id =>
      if k = id then rest else (k, v) :: mapDelete rest id

/-- The parsed JSON body of a `POST /register/:id` request.  A field is `none`
when it is absent from the document (or is a falsy value such as `null` or
`undefined`, which `data.toolName || ...` treats the same way). -/
structure RegisterBody where
  toolName : Option String
  input : Option JsInput
deriving Repr, DecidableEq

/-- JavaScript `s || dflt` for a string-valued field: the default is used when
the field is absent or its value is falsy (the empty string). -/
def jsOrString (v : Option String) (dflt : String) : String :=
  match v with
  | none => dflt
  | some s => if s = "" then dflt else s

/-- An HTTP response of the coordination endpoint: the status code plus the
fields that can occur in the JSON bodies the handler writes.  Fields that a
given response does not mention are `none`. -/
structure HttpResp where
  code : Nat
  success : Option Bool := none
  error : Option String := none
  message : Option String := none
  approvalStatus : Option Status := none
  toolName : Option String := none
  pendingApprovals : Option Nat := none
  approvalId : Option String := none
  healthStatus : Option String := none
deriving Repr, DecidableEq

/-- JavaScript `String.split('/')` over the character list: cut the string at
every `/`, keeping empty segments.  `acc` holds the characters of the current
segment in reverse. -/
def splitSegs : List Char → List Char → List String
  | [], acc => [String.mk acc.reverse]
  | c :: cs, acc =>
      if c = '/' then String.mk acc.reverse :: splitSegs cs []
      else splitSegs cs (c :: acc)

/-- `url.pathname.split('/').filter(Boolean)`. -/
def pathParts (pathname : String) : List String :=
  (splitSegs pathname.data []).filter (fun s => s ≠ "")

/-- The `GET /health` route: `{status: 'ok', pendingApprovals: size}` where
`size` is the number of entries currently in the registry map. -/
def handleHealth (st : Registry) : HttpResp :=
  { code := 200, healthStatus := some "ok", pendingApprovals := some st.length }

/-- The `POST /register/:id` route body: on a parsed body, store a fresh
`pending` record (defaulting `toolName` to `"unknown"` and `input` to `{}`)
and answer `{success: true, approvalId}`; when `JSON.parse` threw
(`body = none`), answer `400 {success: false, error: 'Invalid JSON'}`. -/
def handleRegister (st : Registry) (id : String) (body : Option RegisterBody)
    (now : Nat) : Registry × HttpResp :=
  match body with
  | some data =>
      let approval : PendingApproval :=
        { approvalId := id
          toolName := jsOrString data.toolName "unknown"
          input := data.input.getD JsInput.emptyObj
          status := Status.pending
          registeredAt := now
          resolvedAt := none }
      (mapSet st id approval,
       { code := 200, success := some true, approvalId := some id })
  | none =>
      (st, { code := 400, success := some false, error := some "Invalid JSON" })

/-- The `GET /status/:id` route: report the stored status and tool name, or
`404 {success: false, error: 'Approval not found'}`. -/
def handleStatus (st : Registry) (id : String) : HttpResp :=
  match mapGet st id with
  | some approval =>
      { code := 200, success := some true,
        approvalStatus := some approval.status,
        toolName := some approval.toolName }
  | none =>
      { code := 404, success := some false,
        error := some "Approval not found" }

/-- The `POST /approve/:id` route: if the id is present in the map (whatever
its current status), set `status = 'approved'` and stamp `resolvedAt`;
otherwise 404. -/
def handleApprove (st : Registry) (id : String) (now : Nat) :
    Registry × HttpResp :=
  match mapGet st id with
  | some approval =>
      (mapSet st id
        { approval with status := Status.approved, resolvedAt := some now },
       { code := 200, success := some true, message := some "Approved" })
  | none =>
      (st, { code := 404, success := some false,
             error := some "Approval not found or already processed" })

/-- The `POST /deny/:id` route: if the id is present in the map (whatever its
current status), set `status = 'denied'` and stamp `resolvedAt`; otherwise
404. -/
def handleDeny (st : Registry) (id : String) (now : Nat) :
    Registry × HttpResp :=
  match mapGet st id with
  | some approval =>
      (mapSet st id
        { approval with status := Status.denied, resolvedAt := some now },
       { code := 200, success := some true, message := some "Denied" })
  | none =>
      (st, { code := 404, success := some false,
             error := some "Approval not found or already processed" })

/-- The full `ApprovalManager` request handler, dispatching on method and
pathname exactly as the source does.  Note that the cleanup branch is guarded
by `url.pathname === '/cleanup'`, so a request to `/cleanup/:id` does not
reach it; inside the branch `pathParts[1]` is read but is necessarily absent
when the pathname is exactly `/cleanup`. -/
def handleRequest (st : Registry) (method pathname : String)
    (body : Option RegisterBody) (now : Nat) : Registry × HttpResp :=
  if method = "OPTIONS" then
    (st, { code := 200 })
  else if method = "GET" ∧ pathname = "/health" then
    (st, handleHealth st)
  else
    match method, pathParts pathname with
    | "POST", "register" :: id :: _ => handleRegister st id body now
    | "GET", "status" :: id :: _ => (st, handleStatus st id)
    | "POST", "approve" :: id :: _ => handleApprove st id now
    | "POST", "deny" :: id :: _ => handleDeny st id now
    | _, _ =>
      if method = "POST" ∧ pathname = "/cleanup" then
        match (pathParts pathname)[1]? with
        | some id => (mapDelete st id, { code := 200, success := some true })
        | none => (st, { code := 200, success := some true })
      else
        (st, { code := 404, error := some "Not found" })

/-- The staleness window of the cleanup interval: `5 * 60 * 1000` ms. -/
def staleWindowMs : Nat := 5 * 60 * 1000

/-- One run of the `ApprovalManager` cleanup interval: delete every record
with `registeredAt.getTime() < Date.now() - 5 * 60 * 1000`. -/
def sweep (st : Registry) (now : Nat) : Registry :=
  st.filter (fun e => ¬ e.2.registeredAt < now - staleWindowMs)

/-- The direct `ApprovalManager.resolveApproval(approvalId, approved)` method:
only a record whose status is still `pending` is transitioned (to `approved`
or `denied`, stamping `resolvedAt`); the returned Bool is the method's return
value. -/
def resolveApproval (st : Registry) (id : String) (approved : Bool)
    (now : Nat) : Registry × Bool :=
  match mapGet st id with
  | some approval =>
      if approval.status = Status.pending then
        (mapSet st id
          { approval with
              status := if approved then Status.approved else Status.denied,
              resolvedAt := some now },
         true)
      else (st, false)
  | none => (st, false)

/-- The direct `ApprovalManager.getApprovalStatus` method (`null` becomes
`none`). -/
def getApprovalStatus (st : Registry) (id : String) : Option Status :=
  (mapGet st id).map (fun a => a.status)

/-- One operation against the `ApprovalManager` registry: an HTTP register,
approve, deny or cleanup request, a direct `resolveApproval` call, or one run
of the cleanup interval. -/
inductive RegistryOp where
  | register (id : String) (body : Option RegisterBody) (now : Nat)
  | httpApprove (id : String) (now : Nat)
  | httpDeny (id : String) (now : Nat)
  | resolve (id : String) (approved : Bool) (now : Nat)
  | cleanup (id : Option String)
  | sweepOp (now : Nat)

/-- Apply one registry operation, keeping only the state component. -/
def applyOp (st : Registry) : RegistryOp → Registry
  | RegistryOp.register id body now => (handleRegister st id body now).1
  | RegistryOp.httpApprove id now => (handleApprove st id now).1
  | RegistryOp.httpDeny id now => (handleDeny st id now).1
  | RegistryOp.resolve id approved now => (resolveApproval st id approved now).1
  | RegistryOp.cleanup (some id) => mapDelete st id
  | RegistryOp.cleanup none => st
  | RegistryOp.sweepOp now => sweep st now

/-- The record-level invariant of the spec: `resolvedAt` is present iff the
status is not `pending`. -/
def resolvedAtConsistent (a : PendingApproval) : Prop :=
  a.resolvedAt.isSome = true ↔ a.status ≠ Status.pending

/-- The registry-level invariant: every stored record satisfies
`resolvedAtConsistent`. -/
def RegistryInv (st : Registry) : Prop :=
  ∀ e ∈ st, resolvedAtConsistent e.2

/-!
The `PermissionMCPServer` worker (the cross-process registrant and waiter).
-/

/-- The outcome of one `fetch` of `GET /status/:id` as seen by the poll loop:
either the parsed `{success, status?}` document, or a thrown network error
(caught and logged by the loop). -/
inductive QueryResult where
  | ok (success : Bool) (status : Option Status)
  | networkError
deriving Repr, DecidableEq

/-- The `{behavior: 'allow' | 'deny'}` field of a `PermissionResponse`. -/
inductive Behavior where
  | allow
  | deny
deriving Repr, DecidableEq

/-- What `pollApprovalStatus` produces, instrumented with the number of
status queries issued and the elapsed time (ms since the loop started) at the
moment it returns. -/
structure PollResult where
  behavior : Behavior
  message : String
  queries : Nat
  elapsed : Nat
deriving Repr, DecidableEq

/-- The poll interval of `pollApprovalStatus`: `const pollInterval = 1000`. -/
def pollIntervalMs : Nat := 1000

/-- The body of `pollApprovalStatus`'s `while (Date.now() - startTime <
timeoutMs)` loop.  `oracle q` is the outcome of the `q`-th status fetch
(0-indexed); each iteration queries once and then sleeps `pollIntervalMs`, so
`elapsed` advances by `pollIntervalMs` per iteration.  A response with
`success && status` and a terminal status returns immediately; a `pending`
status, a non-success document, and a thrown fetch all fall through to the
sleep.  When the loop condition fails the timeout response is returned. -/
def pollAux (oracle : Nat → QueryResult) (timeoutMs : Nat) (elapsed q : Nat) :
    PollResult :=
  if elapsed < timeoutMs then
    match oracle q with
    | QueryResult.ok true (some Status.approved) =>
        { behavior := Behavior.allow, message := "Approved by user",
          queries := q + 1, elapsed := elapsed }
    | QueryResult.ok true (some Status.denied) =>
        { behavior := Behavior.deny, message := "Denied by user",
          queries := q + 1, elapsed := elapsed }
    | _ => pollAux oracle timeoutMs (elapsed + pollIntervalMs) (q + 1)
  else
    { behavior := Behavior.deny, message := "Permission request timed out",
      queries := q, elapsed := elapsed }
termination_by timeoutMs - elapsed
decreasing_by
  simp only [pollIntervalMs]
  omega

/-- `PermissionMCPServer.pollApprovalStatus(approvalId, timeoutMs)`: poll the
status endpoint every second until a terminal status or the timeout budget is
exhausted. -/
def pollApprovalStatus (oracle : Nat → QueryResult) (timeoutMs : Nat) :
    PollResult :=
  pollAux oracle timeoutMs 0 0

/-- The outcome of `registerApproval`'s `fetch` of `POST /register/:id`:
either the parsed `{success}` document or a thrown transport error. -/
inductive RegisterOutcome where
  | response (success : Bool)
  | transportError
deriving Repr, DecidableEq

/-- `PermissionMCPServer.registerApproval`: `result.success`, or `false` when
the fetch threw. -/
def registerApproval : RegisterOutcome → Bool
  | RegisterOutcome.response success => success
  | RegisterOutcome.transportError => false

/-- What `handlePermissionPrompt` returns to the tool framework (the JSON
`PermissionResponse` in the text content), instrumented with the number of
status queries its poll loop issued. -/
structure PromptResult where
  behavior : Behavior
  message : String
  statusQueries : Nat
deriving Repr, DecidableEq

/-- `PermissionMCPServer.handlePermissionPrompt`, abstracted over the outcome
of the registration fetch, of the Slack `postMessage` and `chat.update` calls
(`true` = did not throw), and over the status oracle driving the poll loop.
If registration reports failure the handler returns the
fail-closed deny without entering the try block; a throw from `postMessage`
skips the poll and yields the catch-branch deny; a throw from `chat.update`
after polling also yields the catch-branch deny. -/
def handlePermissionPrompt (reg : RegisterOutcome)
    (slackPostOk slackUpdateOk : Bool) (oracle : Nat → QueryResult)
    (timeoutMs : Nat) : PromptResult :=
  if registerApproval reg = false then
    { behavior := Behavior.deny,
      message := "Failed to register approval request", statusQueries := 0 }
  else if slackPostOk = false then
    { behavior := Behavior.deny,
      message := "Error occurred while requesting permission",
      statusQueries := 0 }
  else
    let p := pollApprovalStatus oracle timeoutMs
    if slackUpdateOk = false then
      { behavior := Behavior.deny,
        message := "Error occurred while requesting permission",
        statusQueries := p.queries }
    else
      { behavior := p.behavior, message := p.message,
        statusQueries := p.queries }

/-!
The `error` handlers installed on the two HTTP servers.
-/

/-- What an HTTP-server `error` handler does: the message it logs, and the
port it calls `listen` on again, if any. -/
structure ErrorAction where
  logMessage : String
  retryListen : Option Nat
deriving Repr, DecidableEq

/-- The `ApprovalManager` server's `error` handler: on `EADDRINUSE` it logs
`Port ... already in use. Cannot start approval server.` and does not listen
again; on any other error it logs `HTTP server error`. -/
def managerOnError (code : String) : ErrorAction :=
  if code = "EADDRINUSE" then
    { logMessage := "Port already in use. Cannot start approval server.",
      retryListen := none }
  else
    { logMessage := "HTTP server error", retryListen := none }

/-- The embedded `PermissionMCPServer` variant's `error` handler: on
`EADDRINUSE` it logs a warning and calls `this.httpServer?.listen(port + 1)`. -/
def mcpServerOnError (port : Nat) (code : String) : ErrorAction :=
  if code = "EADDRINUSE" then
    { logMessage := "Port already in use, trying next port",
      retryListen := some (port + 1) }
  else
    { logMessage := "HTTP server error", retryListen := none }

/-- Whether a status-fetch outcome makes the poll loop return immediately:
`result.success && result.status` with a terminal status. -/
def isTerminalQuery : QueryResult → Bool
  | QueryResult.ok true (some Status.approved) => true
  | QueryResult.ok true (some Status.denied) => true
  | _ => false

/-!
Helper lemmas about the JavaScript-`Map` model.
-/

theorem mapGet_mapSet_self (st : Registry) (id : String) (v : PendingApproval) :
    mapGet (mapSet st id v) id = some v := by
  induction st with
  | nil => simp [mapSet, mapGet]
  | cons e rest ih =>
      obtain ⟨k, w⟩ := e
      by_cases h : k = id
      · simp [mapSet, h, mapGet]
      · simp [mapSet, h, mapGet, ih]

theorem mapSet_length_of_mem (st : Registry) (id : String)
    (a v : PendingApproval) (h : mapGet st id = some a) :
    (mapSet st id v).length = st.length := by
  induction st with
  | nil => simp [mapGet] at h
  | cons e rest ih =>
      obtain ⟨k, w⟩ := e
      by_cases hk : k = id
      · simp [mapSet, hk]
      · simp only [mapGet, if_neg hk] at h
        simp [mapSet, hk, ih h]

theorem mem_of_mem_mapSet (st : Registry) (id : String) (v : PendingApproval)
    (e : String × PendingApproval) (h : e ∈ mapSet st id v) :
    e = (id, v) ∨ e ∈ st := by
  induction st with
  | nil => simpa [mapSet] using h
  | cons f rest ih =>
      obtain ⟨k, w⟩ := f
      by_cases hk : k = id
      · simp only [mapSet, if_pos hk, List.mem_cons] at h
        rcases h with h | h
        · exact Or.inl h
        · exact Or.inr (List.mem_cons_of_mem _ h)
      · simp only [mapSet, if_neg hk, List.mem_cons] at h
        rcases h with h | h
        · exact Or.inr (by simp [h])
        · rcases ih h with h' | h'
          · exact Or.inl h'
          · exact Or.inr (List.mem_cons_of_mem _ h')

theorem mem_of_mem_mapDelete (st : Registry) (id : String)
    (e : String × PendingApproval) (h : e ∈ mapDelete st id) : e ∈ st := by
  induction st with
  | nil => simp [mapDelete] at h
  | cons f rest ih =>
      obtain ⟨k, w⟩ := f
      by_cases hk : k = id
      · simp only [mapDelete, if_pos hk] at h
        exact List.mem_cons_of_mem _ h
      · simp only [mapDelete, if_neg hk, List.mem_cons] at h
        rcases h with h | h
        · simp [h]
        · exact List.mem_cons_of_mem _ (ih h)

/-!
Invariant preservation for the registry operations.
-/

theorem applyOp_preserves_inv (st : Registry) (op : RegistryOp)
    (hinv : RegistryInv st) : RegistryInv (applyOp st op) := by
  cases op with
  | register id body now =>
      cases body with
      | none => exact hinv
      | some data =>
          intro e he
          simp only [applyOp, handleRegister] at he
          rcases mem_of_mem_mapSet _ _ _ _ he with rfl | he'
          · simp [resolvedAtConsistent]
          · exact hinv e he'
  | httpApprove id now =>
      intro e he
      simp only [applyOp, handleApprove] at he
      cases hget : mapGet st id with
      | none => rw [hget] at he; exact hinv e he
      | some a =>
          rw [hget] at he
          rcases mem_of_mem_mapSet _ _ _ _ he with rfl | he'
          · simp [resolvedAtConsistent]
          · exact hinv e he'
  | httpDeny id now =>
      intro e he
      simp only [applyOp, handleDeny] at he
      cases hget : mapGet st id with
      | none => rw [hget] at he; exact hinv e he
      | some a =>
          rw [hget] at he
          rcases mem_of_mem_mapSet _ _ _ _ he with rfl | he'
          · simp [resolvedAtConsistent]
          · exact hinv e he'
  | resolve id approved now =>
      intro e he
      simp only [applyOp, resolveApproval] at he
      cases hget : mapGet st id with
      | none => rw [hget] at he; exact hinv e he
      | some a =>
          simp only [hget] at he
          by_cases hp : a.status = Status.pending
          · rw [if_pos hp] at he
            rcases mem_of_mem_mapSet _ _ _ _ he with rfl | he'
            · cases approved <;> simp [resolvedAtConsistent]
            · exact hinv e he'
          · rw [if_neg hp] at he
            exact hinv e he
  | cleanup oid =>
      cases oid with
      | none => exact hinv
      | some id =>
          intro e he
          exact hinv e (mem_of_mem_mapDelete _ _ _ he)
  | sweepOp now =>
      intro e he
      exact hinv e (List.mem_filter.mp he).1

theorem registryInv_foldl (ops : List RegistryOp) :
    ∀ st, RegistryInv st → RegistryInv (List.foldl applyOp st ops) := by
  induction ops with
  | nil => intro st h; exact h
  | cons op rest ih =>
      intro st h
      exact ih _ (applyOp_preserves_inv st op h)

/-!
The timeout behaviour of the poll loop.
-/

theorem pollAux_no_terminal (oracle : Nat → QueryResult) (timeoutMs : Nat)
    (h : ∀ n, isTerminalQuery (oracle n) = false) (elapsed q : Nat) :
    (pollAux oracle timeoutMs elapsed q).behavior = Behavior.deny ∧
    (pollAux oracle timeoutMs elapsed q).message = "Permission request timed out" ∧
    timeoutMs ≤ (pollAux oracle timeoutMs elapsed q).elapsed := by
  rw [pollAux]
  split
  · rename_i hlt
    split
    · rename_i heq
      have hq := h q
      rw [heq] at hq
      simp [isTerminalQuery] at hq
    · rename_i heq
      have hq := h q
      rw [heq] at hq
      simp [isTerminalQuery] at hq
    · exact pollAux_no_terminal oracle timeoutMs h (elapsed + pollIntervalMs) (q + 1)
  · rename_i hge
    refine ⟨rfl, rfl, ?_⟩
    simpa using Nat.le_of_not_lt hge
termination_by timeoutMs - elapsed
decreasing_by
  simp only [pollIntervalMs]
  omega

/-!
Claim theorems.
-/

/-- C1 counterexample: the claim fails on the HTTP routes.  Register `a1`,
`POST /approve/a1`, then `POST /deny/a1`: the stored status ends up `denied`
(the claim says it stays `approved`), and the second call answers
`200 {success: true, message: 'Denied'}` instead of reporting
already-resolved/no-op. -/
theorem http_deny_overwrites_approved :
    getApprovalStatus
      (handleRequest
        (handleRequest
          (handleRequest [] "POST" "/register/a1"
            (some { toolName := some "bash", input := none }) 0).1
          "POST" "/approve/a1" none 1).1
        "POST" "/deny/a1" none 2).1 "a1" = some Status.denied ∧
    (handleRequest
        (handleRequest
          (handleRequest [] "POST" "/register/a1"
            (some { toolName := some "bash", input := none }) 0).1
          "POST" "/approve/a1" none 1).1
        "POST" "/deny/a1" none 2).2 =
      { code := 200, success := some true, message := some "Denied" } := by
  decide

/-- C1 (amended): for the direct `resolveApproval` method the first
resolution wins: resolving a pending record with `approved = true` succeeds
and stores `approved`, and a subsequent `resolveApproval(id, false)` is a
no-op that returns `false` and leaves the registry unchanged.  (The HTTP
`/approve` and `/deny` routes do not have this property: they overwrite the
status unconditionally.) -/
theorem resolveApproval_first_resolution_wins (st : Registry) (id : String)
    (a : PendingApproval) (t1 t2 : Nat) (hget : mapGet st id = some a)
    (hp : a.status = Status.pending) :
    (resolveApproval st id true t1).2 = true ∧
    getApprovalStatus (resolveApproval st id true t1).1 id =
      some Status.approved ∧
    resolveApproval (resolveApproval st id true t1).1 id false t2 =
      ((resolveApproval st id true t1).1, false) := by
  have h1 : resolveApproval st id true t1 =
      (mapSet st id { a with status := Status.approved, resolvedAt := some t1 },
       true) := by
    simp [resolveApproval, hget, hp]
  refine ⟨by rw [h1], ?_, ?_⟩
  · rw [h1]
    simp [getApprovalStatus, mapGet_mapSet_self]
  · rw [h1]
    simp [resolveApproval, mapGet_mapSet_self]

/-- C1 witness: the amended theorem applied to a concrete one-record
registry. -/
theorem resolveApproval_first_resolution_wins_witness :
    (resolveApproval
      [("a1", { approvalId := "a1", toolName := "bash",
                input := JsInput.emptyObj, status := Status.pending,
                registeredAt := 0, resolvedAt := none })] "a1" true 5).2 = true ∧
    getApprovalStatus
      (resolveApproval
        [("a1", { approvalId := "a1", toolName := "bash",
                  input := JsInput.emptyObj, status := Status.pending,
                  registeredAt := 0, resolvedAt := none })] "a1" true 5).1 "a1" =
      some Status.approved ∧
    resolveApproval
      (resolveApproval
        [("a1", { approvalId := "a1", toolName := "bash",
                  input := JsInput.emptyObj, status := Status.pending,
                  registeredAt := 0, resolvedAt := none })] "a1" true 5).1
      "a1" false 7 =
      ((resolveApproval
        [("a1", { approvalId := "a1", toolName := "bash",
                  input := JsInput.emptyObj, status := Status.pending,
                  registeredAt := 0, resolvedAt := none })] "a1" true 5).1,
       false) :=
  resolveApproval_first_resolution_wins
    [("a1", { approvalId := "a1", toolName := "bash",
              input := JsInput.emptyObj, status := Status.pending,
              registeredAt := 0, resolvedAt := none })] "a1"
    { approvalId := "a1", toolName := "bash", input := JsInput.emptyObj,
      status := Status.pending, registeredAt := 0, resolvedAt := none }
    5 7 (by decide) (by decide)

/-- C2: the code at the claim's failing input.  With `a1` registered, a
`POST /cleanup/a1` request does not reach the cleanup branch (which is
guarded by `url.pathname === '/cleanup'`): it answers
`404 {error: 'Not found'}`, leaves the registry unchanged, and a subsequent
`GET /status/a1` still succeeds — contradicting the claimed
`{success: true}` response, record removal, and subsequent not-found. -/
theorem cleanup_with_id_returns_not_found :
    handleRequest
      [("a1", { approvalId := "a1", toolName := "bash",
                input := JsInput.emptyObj, status := Status.approved,
                registeredAt := 0, resolvedAt := some 1 })]
      "POST" "/cleanup/a1" none 3 =
      ([("a1", { approvalId := "a1", toolName := "bash",
                 input := JsInput.emptyObj, status := Status.approved,
                 registeredAt := 0, resolvedAt := some 1 })],
       { code := 404, error := some "Not found" }) ∧
    (handleStatus
      [("a1", { approvalId := "a1", toolName := "bash",
                input := JsInput.emptyObj, status := Status.approved,
                registeredAt := 0, resolvedAt := some 1 })] "a1").success =
      some true := by
  decide

/-- C3: a poll loop whose status oracle never returns a terminal outcome
yields `{behavior: deny}` with a message containing `"timed out"`, and only
returns once the elapsed time has reached the full timeout budget; moreover,
with a timeout of two poll intervals (2000 ms at the source's fixed 1000 ms
interval) it issues exactly two status queries before returning the
deny-by-timeout result at 2000 ms elapsed. -/
theorem poll_timeout_deny_after_budget :
    (∀ (oracle : Nat → QueryResult) (timeoutMs : Nat),
      (∀ n, isTerminalQuery (oracle n) = false) →
      (pollApprovalStatus oracle timeoutMs).behavior = Behavior.deny ∧
      (∃ pre post,
        (pollApprovalStatus oracle timeoutMs).message =
          pre ++ "timed out" ++ post) ∧
      timeoutMs ≤ (pollApprovalStatus oracle timeoutMs).elapsed) ∧
    pollApprovalStatus (fun _ => QueryResult.ok true (some Status.pending))
        2000 =
      { behavior := Behavior.deny, message := "Permission request timed out",
        queries := 2, elapsed := 2000 } := by
  constructor
  · intro oracle timeoutMs h
    obtain ⟨hb, hm, he⟩ := pollAux_no_terminal oracle timeoutMs h 0 0
    refine ⟨hb, ⟨"Permission request ", "", ?_⟩, he⟩
    rw [pollApprovalStatus, hm]
    decide
  · rw [pollApprovalStatus, pollAux]
    norm_num
    rw [pollAux]
    norm_num [pollIntervalMs]
    rw [pollAux]
    norm_num

/-- C3 witness: the general part applied to the oracle whose every fetch
throws, with a 3000 ms budget. -/
theorem poll_timeout_deny_after_budget_witness :
    (pollApprovalStatus (fun _ => QueryResult.networkError) 3000).behavior =
      Behavior.deny ∧
    3000 ≤ (pollApprovalStatus (fun _ => QueryResult.networkError) 3000).elapsed :=
  ⟨(poll_timeout_deny_after_budget.1 (fun _ => QueryResult.networkError) 3000
      (fun _ => rfl)).1,
   (poll_timeout_deny_after_budget.1 (fun _ => QueryResult.networkError) 3000
      (fun _ => rfl)).2.2⟩

/-- C4: a register request whose body fails `JSON.parse` is answered with
`400 {success: false, error: 'Invalid JSON'}` and the registry is left
exactly as it was — both at the route body for any id and through the full
request dispatcher. -/
theorem register_malformed_body_rejected (st : Registry) (id : String)
    (now : Nat) :
    handleRegister st id none now =
      (st, { code := 400, success := some false,
             error := some "Invalid JSON" }) ∧
    handleRequest st "POST" "/register/a1" none now =
      (st, { code := 400, success := some false,
             error := some "Invalid JSON" }) := by
  exact ⟨rfl, rfl⟩

/-- C5: if the registration fetch reports failure (a thrown transport error
or a `{success: false}` document), `handlePermissionPrompt` fails closed: it
returns `{behavior: 'deny', message: 'Failed to register approval request'}`
and issues no status query at all. -/
theorem registration_failure_fails_closed (reg : RegisterOutcome)
    (slackPostOk slackUpdateOk : Bool) (oracle : Nat → QueryResult)
    (timeoutMs : Nat) (h : registerApproval reg = false) :
    handlePermissionPrompt reg slackPostOk slackUpdateOk oracle timeoutMs =
      { behavior := Behavior.deny,
        message := "Failed to register approval request",
        statusQueries := 0 } := by
  simp [handlePermissionPrompt, h]

/-- C5 witness: the theorem applied to a thrown registration fetch. -/
theorem registration_failure_fails_closed_witness :
    handlePermissionPrompt RegisterOutcome.transportError true true
        (fun _ => QueryResult.ok true (some Status.approved)) 5000 =
      { behavior := Behavior.deny,
        message := "Failed to register approval request",
        statusQueries := 0 } :=
  registration_failure_fails_closed RegisterOutcome.transportError true true
    (fun _ => QueryResult.ok true (some Status.approved)) 5000 (by decide)

/-- C6: one run of the cleanup interval keeps exactly the records that are
not older than the 5-minute staleness window: a record survives the sweep
(unchanged, whatever its status) iff it was present and its `registeredAt` is
not older than `now - 5 * 60 * 1000`. -/
theorem sweep_removes_exactly_stale_records (st : Registry) (now : Nat)
    (e : String × PendingApproval) :
    e ∈ sweep st now ↔
      e ∈ st ∧ ¬ e.2.registeredAt < now - staleWindowMs := by
  simp [sweep, List.mem_filter]

/-- C7: after any sequence of register, HTTP approve, HTTP deny, direct
resolve, cleanup and sweep operations starting from the empty registry, every
stored record has `resolvedAt` present iff its status is not `pending`. -/
theorem resolvedAt_iff_not_pending_invariant (ops : List RegistryOp) :
    RegistryInv (List.foldl applyOp [] ops) :=
  registryInv_foldl ops [] (by intro e he; cases he)

/-- C8 counterexample: the embedded `PermissionMCPServer` variant's HTTP
server does not fail loudly on `EADDRINUSE` — its error handler calls
`listen(port + 1)`, i.e. on the configured port 3847 it silently retries on
3848, contradicting the claim that the endpoint never begins listening on any
port other than the configured one. -/
theorem embedded_server_retries_port_plus_one :
    mcpServerOnError 3847 "EADDRINUSE" =
      { logMessage := "Port already in use, trying next port",
        retryListen := some 3848 } := by
  decide

/-- C8 (amended): the `ApprovalManager` coordination endpoint does fail
loudly on a bind failure — its error handler never calls `listen` again on
any error code and logs the fatal message on `EADDRINUSE` — but the embedded
`PermissionMCPServer` variant silently retries on `port + 1`. -/
theorem manager_bind_failure_no_port_retry (code : String) :
    (managerOnError code).retryListen = none ∧
    (managerOnError "EADDRINUSE").logMessage =
      "Port already in use. Cannot start approval server." := by
  unfold managerOnError
  split <;> simp

/-- C9: `GET /health` reports the full size of the registry map: resolving a
stored record via the `/approve` route leaves the reported
`pendingApprovals` count unchanged at the number of stored records, so the
now-`approved` record still contributes to the count until it is cleaned up
or swept. -/
theorem health_counts_resolved_records (st : Registry) (id : String)
    (a : PendingApproval) (now : Nat) (h : mapGet st id = some a) :
    (handleHealth (handleApprove st id now).1).pendingApprovals =
      some st.length ∧
    (handleHealth st).pendingApprovals = some st.length ∧
    getApprovalStatus (handleApprove st id now).1 id =
      some Status.approved := by
  refine ⟨?_, rfl, ?_⟩
  · simp only [handleApprove, h, handleHealth]
    rw [mapSet_length_of_mem st id a _ h]
  · simp only [handleApprove, h, getApprovalStatus]
    rw [mapGet_mapSet_self]
    rfl

/-- C9 witness: the theorem applied to a concrete one-record registry. -/
theorem health_counts_resolved_records_witness :
    (handleHealth
      (handleApprove
        [("a1", { approvalId := "a1", toolName := "bash",
                  input := JsInput.emptyObj, status := Status.pending,
                  registeredAt := 0, resolvedAt := none })] "a1" 9).1).pendingApprovals =
      some 1 ∧
    (handleHealth
      [("a1", { approvalId := "a1", toolName := "bash",
                input := JsInput.emptyObj, status := Status.pending,
                registeredAt := 0, resolvedAt := none })]).pendingApprovals =
      some 1 ∧
    getApprovalStatus
      (handleApprove
        [("a1", { approvalId := "a1", toolName := "bash",
                  input := JsInput.emptyObj, status := Status.pending,
                  registeredAt := 0, resolvedAt := none })] "a1" 9).1 "a1" =
      some Status.approved :=
  health_counts_resolved_records
    [("a1", { approvalId := "a1", toolName := "bash",
              input := JsInput.emptyObj, status := Status.pending,
              registeredAt := 0, resolvedAt := none })] "a1"
    { approvalId := "a1", toolName := "bash", input := JsInput.emptyObj,
      status := Status.pending, registeredAt := 0, resolvedAt := none }
    9 (by decide)

/-- C10: a register request whose parsed body omits `toolName` and `input`
(equivalently, an empty body, which parses to `{}`) still succeeds: the
response is `200 {success: true, approvalId}` and a pending record is stored
with `toolName = 'unknown'` and `input = {}`. -/
theorem register_defaults_missing_fields (st : Registry) (id : String)
    (now : Nat) :
    (handleRegister st id (some { toolName := none, input := none }) now).2 =
      { code := 200, success := some true, approvalId := some id } ∧
    mapGet (handleRegister st id (some { toolName := none, input := none })
        now).1 id =
      some { approvalId := id, toolName := "unknown",
             input := JsInput.emptyObj, status := Status.pending,
             registeredAt := now, resolvedAt := none } := by
  refine ⟨rfl, ?_⟩
  simp only [handleRegister]
  rw [mapGet_mapSet_self]
  rfl
